import Mathlib

/-!
Shallow embedding of the fan-curve control subsystem of the Fan-Curve-App
repository (Rust), together with theorems settling the frozen claims.

Machine integers are modelled as `Int`/`Nat` with explicit wrapping where the
source casts matter (`as i16` on the temperature quotient, `as u8` on the PWM
quotient).  The `f32` arithmetic in `calculate_duty_for_temperature` and in
`read_current_fan_duty_from_pwm` is modelled over `ℚ`; every theorem below
that evaluates the interpolation does so at inputs where the `f32`
computation is exact (interpolation factor 0 or 1, or integer PWM ratios
checked exhaustively for 0..=255), so the rational model is faithful there.
-/

/-- Embeds `FanPoint` (src/src/fan.rs): `temp: i16`, `duty: u16`.
`temp` is an `Int` carrying the i16 range as a side condition where needed;
`duty` is a `Nat` (u16). -/
structure FanPoint where
  temp : Int
  duty : Nat
deriving DecidableEq, Repr

instance : Inhabited FanPoint := ⟨⟨0, 0⟩⟩

/-- Embeds `FanCurve` (src/src/fan.rs): a name and an ordered list of points. -/
structure FanCurve where
  name : String
  points : List FanPoint
deriving DecidableEq, Repr

/-- The sort key used by `add_point`'s `sort_by_key(|p| p.temp)`. -/
def byTemp (a b : FanPoint) : Prop := a.temp ≤ b.temp

instance : DecidableRel byTemp := fun a b => inferInstanceAs (Decidable (a.temp ≤ b.temp))

instance : IsTotal FanPoint byTemp := ⟨fun a b => le_total a.temp b.temp⟩

instance : IsTrans FanPoint byTemp := ⟨fun _ _ _ h h' => le_trans h h'⟩

/-- Rust `v as i16` applied to the non-negative quotient `temp_thousandths / 1000`
(src/src/fan.rs line 80): truncate to 16 bits and reinterpret as signed. -/
def toI16 (v : Nat) : Int :=
  let r := v % 65536
  if r < 32768 then (r : Int) else (r : Int) - 65536

/-- The interpolation body of `calculate_duty_for_temperature`
(src/src/fan.rs lines 98-111): `factor = (t - t1)/(t2 - t1)`,
`duty = duty1 + factor * (duty2 - duty1)`, then `.round() as u16`.
The source computes in `f32`; here the same rational value
`v = duty1 + (t - t1) * (duty2 - duty1) / (t2 - t1)` is rounded half-up by
taking the floor of `v + 1/2` in exact integer arithmetic over the common
denominator `2 * (t2 - t1)`.  For a non-negative `v` (the case on sorted
curves, where the chosen bracket has `t1 < t2` and `t1 ≤ t ≤ t2`) this is
exactly `f32::round`'s half-away-from-zero on the exact value. -/
def interpPair (tc : Int) (p1 p2 : FanPoint) : Nat :=
  let den : Int := p2.temp - p1.temp
  let num : Int := (p1.duty : Int) * den + (tc - p1.temp) * ((p2.duty : Int) - (p1.duty : Int))
  ((2 * num + den).fdiv (2 * den)).toNat

/-- The scan loop of `calculate_duty_for_temperature` (src/src/fan.rs lines
93-113): walk consecutive pairs `(points[i], points[i+1])` in ascending order
and interpolate in the first bracket with `p1.temp <= t && t <= p2.temp`;
the unreachable fallthrough returns 0 (line 116). -/
def scanPairs (tc : Int) : List FanPoint → Nat
  | p1 :: p2 :: rest =>
      if p1.temp ≤ tc ∧ tc ≤ p2.temp then interpPair tc p1 p2
      else scanPairs tc (p2 :: rest)
  | _ => 0

/-- Embeds `FanCurve::calculate_duty_for_temperature` (src/src/fan.rs lines
73-117).  Input is the u32 temperature in thousandths of a degree; the code
computes `temp_tenths = (temp_thousandths / 1000) as i16`, clamps below the
first point and above the last point, and otherwise scans for a bracket. -/
def FanCurve.calculate_duty_for_temperature (c : FanCurve) (temp_thousandths : Nat) : Nat :=
  if c.points.isEmpty then 0
  else
    let tc := toI16 (temp_thousandths / 1000)
    if tc ≤ c.points.headI.temp then c.points.headI.duty
    else if c.points.getLastI.temp ≤ tc then c.points.getLastI.duty
    else scanPairs tc c.points

/-- Embeds `FanCurve::add_point` (src/src/fan.rs lines 49-52): push the new
point, then stable-sort by temperature (`Vec::sort_by_key` is stable;
`List.insertionSort` is the same stable sort as a function). -/
def FanCurve.add_point (c : FanCurve) (temp : Int) (duty : Nat) : FanCurve :=
  { c with points := List.insertionSort byTemp (c.points ++ [⟨temp, duty⟩]) }

/-- Embeds the state effect of `FanCurve::remove_last_point` (src/src/fan.rs
lines 54-56): `Vec::pop`.  The popped point the source also returns is
irrelevant to the claims about the resulting state. -/
def FanCurve.remove_last_point (c : FanCurve) : FanCurve :=
  { c with points := c.points.dropLast }

/-- Embeds the state effect of `FanCurve::remove_point` (src/src/fan.rs lines
58-64): remove at `index` when in bounds, otherwise leave the vector
untouched (the source returns `None` then). -/
def FanCurve.remove_point (c : FanCurve) (index : Nat) : FanCurve :=
  if index < c.points.length then { c with points := c.points.eraseIdx index } else c

/-- Embeds `FanMonitor::duty_to_pwm` (src/src/fan_monitor.rs lines 751-753):
`((u32::from(duty) * 255) / 10000) as u8` — truncating division followed by a
wrapping cast to u8. -/
def duty_to_pwm (duty : Nat) : Nat :=
  duty * 255 / 10000 % 256

/-- Embeds the PWM-to-duty conversion of
`FanMonitor::read_current_fan_duty_from_pwm` (src/src/fan_monitor.rs lines
264 and 283): `(pwm_value as f32 / 255.0 * 10000.0) as u16`.  For every PWM
register value 0..=255 the `f32` computation truncates to exactly
`pwm * 10000 / 255` (the two `f32` roundings never cross an integer
boundary), so the conversion is modelled by that exact truncating division. -/
def pwm_to_duty (pwm : Nat) : Nat :=
  pwm * 10000 / 255

/-- Embeds `FanCurveConfig` (src/src/fan.rs lines 200-204): the owned list of
curves plus the optional default-curve index. -/
structure FanCurveConfig where
  curves : List FanCurve
  default_curve_index : Option Nat
deriving DecidableEq, Repr

/-- The in-memory state of `FanCurveDaemon` (src/src/daemon/mod.rs lines
15-20): the config and the currently selected curve index (both behind
mutexes in the source; every control-surface method takes both locks, so the
methods are serialized and modelled as plain state transitions). -/
structure DaemonState where
  config : FanCurveConfig
  current_curve_index : Nat
deriving DecidableEq, Repr

/-- The control-surface methods of `FanCurveDaemon` (src/src/daemon/mod.rs).
Read-only methods (`get_fan_curves`, `get_current_fan_curve`) do not mutate
state and are omitted from the transition alphabet. -/
inductive DaemonOp where
  | setFanCurve (index : Nat)
  | setFanCurveByName (n : String)
  | setDefaultFanCurve (n : String)
  | addFanCurvePoint (temp : Int) (duty : Nat)
  | removeFanCurvePoint
  | saveConfig
deriving DecidableEq, Repr

/-- Rust's `iter().position(|c| c.name() == name)` used by
`set_fan_curve_by_name` and `set_default_fan_curve` (src/src/daemon/mod.rs
lines 205 and 232): index of the first curve with the given name. -/
def positionByName (n : String) : List FanCurve → Option Nat
  | [] => none
  | c :: cs => if c.name = n then some 0 else (positionByName n cs).map (· + 1)

/-- One control-surface call (src/src/daemon/mod.rs lines 179-349), as a
transition on the in-memory `DaemonState` paired with the D-Bus result.
`saveOk` abstracts whether the `ensure_config_saved` disk write succeeds
(its retry structure is modelled separately by `ensure_config_saved`); on a
failed save the method returns an error but the in-memory mutation it already
performed remains, exactly as in the source. -/
def applyDaemonOp (s : DaemonState) (op : DaemonOp) (saveOk : Bool) :
    DaemonState × Except String Unit :=
  match op with
  | .setFanCurve index =>
      if index < s.config.curves.length then
        ({ s with current_curve_index := index }, .ok ())
      else (s, .error "Invalid fan curve index")
  | .setFanCurveByName n =>
      match positionByName n s.config.curves with
      | some index => ({ s with current_curve_index := index }, .ok ())
      | none => (s, .error "Fan curve not found")
  | .setDefaultFanCurve n =>
      match positionByName n s.config.curves with
      | some index =>
          let s' := { s with config := { s.config with default_curve_index := some index } }
          if saveOk then (s', .ok ()) else (s', .error "Failed to save config")
      | none => (s, .error "Fan curve not found")
  | .addFanCurvePoint temp duty =>
      if ¬(0 ≤ temp ∧ temp ≤ 100) ∨ 100 < duty then
        (s, .error "Invalid fan curve point values")
      else
        match s.config.curves.get? s.current_curve_index with
        | some c =>
            let s' := { s with config :=
              { s.config with curves :=
                  s.config.curves.set s.current_curve_index (c.add_point temp duty) } }
            if saveOk then (s', .ok ()) else (s', .error "Failed to save config")
        | none => (s, .error "Invalid current fan curve index")
  | .removeFanCurvePoint =>
      match s.config.curves.get? s.current_curve_index with
      | some c =>
          if c.points.isEmpty then (s, .error "No points to remove")
          else
            let s' := { s with config :=
              { s.config with curves :=
                  s.config.curves.set s.current_curve_index c.remove_last_point } }
            if saveOk then (s', .ok ()) else (s', .error "Failed to save config")
      | none => (s, .error "Invalid current fan curve index")
  | .saveConfig =>
      if saveOk then (s, .ok ()) else (s, .error "Failed to save config")

/-- A sequence of control-surface calls, each with its disk-write outcome,
applied to an initial daemon state. -/
def applyDaemonOps (s : DaemonState) (ops : List (DaemonOp × Bool)) : DaemonState :=
  ops.foldl (fun s ob => (applyDaemonOp s ob.1 ob.2).1) s

/-- A flat model of the config directory: an association list from path to
full file content.  Files appear atomically with their whole content, which
is exactly the guarantee the write-temp-then-rename protocol is meant to
provide for the target path. -/
abbrev FS := List (String × String)

/-- Content of a path, if the file exists (first entry wins). -/
def fsRead : FS → String → Option String
  | [], _ => none
  | e :: rest, p => if e.1 = p then some e.2 else fsRead rest p

/-- Remove every entry for a path. -/
def fsRemove : FS → String → FS
  | [], _ => []
  | e :: rest, p => if e.1 = p then fsRemove rest p else e :: fsRemove rest p

/-- Create or overwrite a path with the given full content. -/
def fsWrite (fs : FS) (p c : String) : FS :=
  (p, c) :: fsRemove fs p

/-- Atomic `std::fs::rename`: the destination takes the source's content in
one step and the source disappears. -/
def fsRename (fs : FS) (src dst : String) : FS :=
  match fsRead fs src with
  | some c => fsRemove (fsWrite fs dst c) src
  | none => fs

/-- Embeds `FanCurveDaemon::save_config_internal` (src/src/daemon/mod.rs
lines 62-94): serialize the config (`cfgText`), write it to the temporary
path (`with_extension("tmp")`, same directory as the target), then rename the
temporary file over the target.  `writeOk`/`renameOk` abstract the I/O
outcomes; a failed write leaves whatever partial bytes (`partial`) it got to
at the temporary path, and a failed rename deletes the temporary file and
surfaces the error (lines 85-90).  (The `create_dir_all` step has no effect
in this flat model.) -/
def save_config_internal (fs : FS) (cfgText : String) (cfgPath tmpPath : String)
    (writeOk renameOk : Bool) ( partial_ : String) : FS × Except String Unit :=
  if ¬ writeOk then
    (fsWrite fs tmpPath partial_, .error "Failed to save config to temp file")
  else
    let fs1 := fsWrite fs tmpPath cfgText
    if renameOk then (fsRename fs1 tmpPath cfgPath, .ok ())
    else (fsRemove fs1 tmpPath, .error "Failed to rename temp config file")

/-- The retry loop body of `FanCurveDaemon::ensure_config_saved`
(src/src/daemon/mod.rs lines 104-129): `save attempt` is the outcome of the
`attempt`-th call to `save_config_internal`, `validation` is the outcome of
the post-save `validate_persistence` round-trip, which is logged and
discarded.  On success return `Ok`; on failure decrement `retries` and retry
while any remain, else return the error; the fall-through after the loop is
`Ok(())`. -/
def ensure_config_saved_go (save : Nat → Except String Unit)
    (validation : Except String Unit) (attempt : Nat) : Nat → Except String Unit
  | 0 => .ok ()
  | r + 1 =>
      match save attempt with
      | .ok () =>
          let _ := validation
          .ok ()
      | .error e =>
          if 0 < r then ensure_config_saved_go save validation (attempt + 1) r
          else .error e

/-- Embeds `FanCurveDaemon::ensure_config_saved`: the loop starts with
`retries = 3`. -/
def ensure_config_saved (save : Nat → Except String Unit)
    (validation : Except String Unit) : Except String Unit :=
  ensure_config_saved_go save validation 0 3

/-- Embeds `FanMonitor::run_monitoring_loop` (src/src/fan_monitor.rs lines
566-578) as a fuel-indexed transition system over iteration numbers.
`monitoring n` is the value of the `is_monitoring` flag observed at the start
of iteration `n` (cleared only by `stop_monitoring`, line 163); `tickErr n`
is the error, if any, of that iteration's `log_fan_data` (which samples the
sensors and applies the curve) — the loop only logs it (`warn!`) and sleeps.
Returns the iteration at which the loop exited, or `none` if it was still
running when the fuel ran out. -/
def run_monitoring_loop (monitoring : Nat → Bool) (tickErr : Nat → Option String) :
    Nat → Nat → Option Nat
  | 0, _ => none
  | fuel + 1, n =>
      if monitoring n then
        let _ := tickErr n
        run_monitoring_loop monitoring tickErr fuel (n + 1)
      else some n

example : duty_to_pwm 10000 = 255 := by decide
example : pwm_to_duty 255 = 10000 := by decide
example : duty_to_pwm 20 = 0 := by decide
example : pwm_to_duty (duty_to_pwm 196) = 156 := by decide

example :
    FanCurve.calculate_duty_for_temperature ⟨"t", [⟨0, 0⟩, ⟨50, 10000⟩, ⟨100, 10000⟩]⟩ 50000
      = 10000 := by decide

example :
    FanCurve.calculate_duty_for_temperature ⟨"t", [⟨0, 0⟩, ⟨30, 2000⟩, ⟨40, 3000⟩]⟩ 35000
      = 2500 := by decide

/-! ## Reachable-curve operations (claim about the curve-mutation alphabet) -/

/-- The three curve-mutation operations of `FanCurve`
(src/src/fan.rs lines 49-64). -/
inductive CurveOp where
  | add (temp : Int) (duty : Nat)
  | removeLast
  | removeAt (index : Nat)
deriving DecidableEq, Repr

/-- Apply one curve-mutation operation. -/
def applyCurveOp (c : FanCurve) : CurveOp → FanCurve
  | .add t d => c.add_point t d
  | .removeLast => c.remove_last_point
  | .removeAt i => c.remove_point i

/-- Apply a sequence of curve-mutation operations, left to right. -/
def applyCurveOps (c : FanCurve) (ops : List CurveOp) : FanCurve :=
  ops.foldl applyCurveOp c

/-! ## Helper lemmas -/

/-- Every single curve-mutation operation preserves ascending-by-temperature
order of the point list. -/
theorem sorted_applyCurveOp (c : FanCurve) (h : List.Sorted byTemp c.points) (op : CurveOp) :
    List.Sorted byTemp (applyCurveOp c op).points := by
  cases op with
  | add t d =>
      exact List.sorted_insertionSort byTemp (c.points ++ [⟨t, d⟩])
  | removeLast =>
      exact List.Pairwise.sublist (List.dropLast_sublist c.points) h
  | removeAt i =>
      simp only [applyCurveOp, FanCurve.remove_point]
      split
      · exact List.Pairwise.sublist (List.eraseIdx_sublist c.points i) h
      · exact h

/-- Sortedness is preserved along any operation sequence. -/
theorem sorted_applyCurveOps (ops : List CurveOp) :
    ∀ c : FanCurve, List.Sorted byTemp c.points →
      List.Sorted byTemp (applyCurveOps c ops).points := by
  induction ops with
  | nil => exact fun c h => h
  | cons op rest ih =>
      intro c h
      exact ih (applyCurveOp c op) (sorted_applyCurveOp c h op)

/-- `positionByName` only returns indices inside the list. -/
theorem positionByName_lt_length {n : String} :
    ∀ {l : List FanCurve} {i : Nat}, positionByName n l = some i → i < l.length := by
  intro l
  induction l with
  | nil => intro i h; simp [positionByName] at h
  | cons c cs ih =>
      intro i h
      unfold positionByName at h
      split at h
      · simp only [Option.some.injEq] at h
        simp only [List.length_cons]
        omega
      · cases hp : positionByName n cs with
        | none => rw [hp] at h; simp at h
        | some j =>
            rw [hp] at h
            simp only [Option.map, Option.some.injEq] at h
            have hj := ih hp
            simp only [List.length_cons]
            omega

/-- Every control-surface call preserves `current_curve_index <
config.curves.length` (curves are never added or removed by the
control-surface methods; the index is only assigned after a bounds check or
from a name-lookup position). -/
theorem daemonOp_preserves_index_bound (s : DaemonState) (op : DaemonOp) (saveOk : Bool)
    (h : s.current_curve_index < s.config.curves.length) :
    (applyDaemonOp s op saveOk).1.current_curve_index
      < (applyDaemonOp s op saveOk).1.config.curves.length := by
  cases op with
  | setFanCurve index =>
      simp only [applyDaemonOp]
      split
      next hlt => simpa using hlt
      next => simpa using h
  | setFanCurveByName n =>
      simp only [applyDaemonOp]
      cases hp : positionByName n s.config.curves with
      | none => simpa using h
      | some i => simpa using positionByName_lt_length hp
  | setDefaultFanCurve n =>
      simp only [applyDaemonOp]
      cases hp : positionByName n s.config.curves with
      | none => simpa using h
      | some i => cases saveOk <;> simpa using h
  | addFanCurvePoint temp duty =>
      simp only [applyDaemonOp]
      split
      · simpa using h
      · cases hg : s.config.curves.get? s.current_curve_index with
        | none => simpa using h
        | some c => cases saveOk <;> simpa [List.length_set] using h
  | removeFanCurvePoint =>
      simp only [applyDaemonOp]
      cases hg : s.config.curves.get? s.current_curve_index with
      | none => simpa using h
      | some c =>
          by_cases hemp : c.points.isEmpty
          · simpa [hemp] using h
          · cases saveOk <;> simpa [hemp, List.length_set] using h
  | saveConfig =>
      simp only [applyDaemonOp]
      cases saveOk <;> simpa using h

/-! ## Claims -/

/-- C1 (counterexample): the round-trip `pwm_to_duty (duty_to_pwm d)` does
NOT stay within one unit of the ten-thousandths scale.  At `d = 20` the
PWM value truncates to 0 and the round-trip returns 0, twenty units below
`d`. -/
theorem c1_roundtrip_within_one_unit_counterexample :
    duty_to_pwm 20 = 0 ∧ pwm_to_duty (duty_to_pwm 20) = 0 ∧
      1 < 20 - pwm_to_duty (duty_to_pwm 20) := by decide

/-- C1 (amended): for every duty `d` in 0..=10000, the round-trip
`pwm_to_duty (duty_to_pwm d)` never exceeds `d` and falls short of it by at
most 40 units of the ten-thousandths scale — one PWM quantum
(10000/255 ≈ 39.2) plus the truncation loss — rather than by at most one
unit. -/
theorem c1_pwm_roundtrip_within_one_pwm_quantum (d : Nat) (hd : d ≤ 10000) :
    pwm_to_duty (duty_to_pwm d) ≤ d ∧ d - pwm_to_duty (duty_to_pwm d) ≤ 40 := by
  unfold duty_to_pwm pwm_to_duty
  have h2 : d * 255 / 10000 % 256 = d * 255 / 10000 := Nat.mod_eq_of_lt (by omega)
  rw [h2]
  omega

/-- Witness for C1's amended theorem at `d = 196`, where the deficit reaches
its maximum of 40. -/
theorem c1_pwm_roundtrip_within_one_pwm_quantum_witness :
    pwm_to_duty (duty_to_pwm 196) ≤ 196 ∧ 196 - pwm_to_duty (duty_to_pwm 196) ≤ 40 :=
  c1_pwm_roundtrip_within_one_pwm_quantum 196 (by decide)

/-- C7: every curve reachable from an empty curve by any sequence of
`add_point`, `remove_last_point` and `remove_point` operations has its point
list sorted ascending by temperature (duplicates permitted:
`List.Sorted byTemp` is non-strict). -/
theorem c7_reachable_curves_sorted (name : String) (ops : List CurveOp) :
    List.Sorted byTemp (applyCurveOps ⟨name, []⟩ ops).points :=
  sorted_applyCurveOps ops ⟨name, []⟩ (List.sorted_nil)

/-- C9: if the daemon starts with a non-empty curve list and selected index 0
(as `FanCurveDaemon::new` does), then after any sequence of control-surface
calls, with any disk-write outcomes, the selected index stays strictly below
the number of curves, so the indexing `config.curves[*current_index]`
performed by `get_current_fan_curve` is always in bounds. -/
theorem c9_current_index_always_in_bounds (s0 : DaemonState)
    (hne : s0.config.curves ≠ []) (h0 : s0.current_curve_index = 0)
    (ops : List (DaemonOp × Bool)) :
    (applyDaemonOps s0 ops).current_curve_index
      < (applyDaemonOps s0 ops).config.curves.length := by
  have hinit : s0.current_curve_index < s0.config.curves.length := by
    rw [h0]
    exact List.length_pos.mpr hne
  clear hne h0
  induction ops generalizing s0 with
  | nil => exact hinit
  | cons ob rest ih =>
      exact ih ((applyDaemonOp s0 ob.1 ob.2).1)
        (daemonOp_preserves_index_bound s0 ob.1 ob.2 hinit)

/-- A concrete daemon state used by witnesses: one curve, index 0. -/
def sampleDaemonState : DaemonState :=
  ⟨⟨[⟨"Standard", [⟨0, 0⟩, ⟨100, 10000⟩]⟩], some 0⟩, 0⟩

/-- Witness for C9 on a concrete state and call sequence. -/
theorem c9_current_index_always_in_bounds_witness :
    (applyDaemonOps sampleDaemonState
        [(.setFanCurveByName "Standard", true), (.addFanCurvePoint 50 40, true)]
      ).current_curve_index
      < (applyDaemonOps sampleDaemonState
          [(.setFanCurveByName "Standard", true), (.addFanCurvePoint 50 40, true)]
        ).config.curves.length :=
  c9_current_index_always_in_bounds sampleDaemonState (by decide) (by decide) _

/-- C4: `add_fan_curve_point` rejects out-of-range input — any call with
temperature outside [0,100] or duty outside [0,100] returns the
"Invalid fan curve point values" error with the state (hence the current
curve) unchanged — and a call with both values in range never produces that
bound-check rejection. -/
theorem c4_add_fan_curve_point_bounds (s : DaemonState) (saveOk : Bool)
    (temp : Int) (duty : Nat) :
    (¬(0 ≤ temp ∧ temp ≤ 100 ∧ duty ≤ 100) →
      applyDaemonOp s (.addFanCurvePoint temp duty) saveOk
        = (s, .error "Invalid fan curve point values"))
    ∧ ((0 ≤ temp ∧ temp ≤ 100 ∧ duty ≤ 100) →
      (applyDaemonOp s (.addFanCurvePoint temp duty) saveOk).2
        ≠ .error "Invalid fan curve point values") := by
  constructor
  · intro hout
    have hcond : ¬(0 ≤ temp ∧ temp ≤ 100) ∨ 100 < duty := by
      by_contra hc
      push_neg at hc
      exact hout ⟨hc.1.1, hc.1.2, hc.2⟩
    simp only [applyDaemonOp]
    rw [if_pos hcond]
  · intro hin
    have hcond : ¬(¬(0 ≤ temp ∧ temp ≤ 100) ∨ 100 < duty) := by
      push_neg
      exact ⟨⟨hin.1, hin.2.1⟩, hin.2.2⟩
    simp only [applyDaemonOp]
    rw [if_neg hcond]
    cases hg : s.config.curves.get? s.current_curve_index with
    | none => simp
    | some c => cases saveOk <;> simp

/-- Witness for C4: `AddFanCurvePoint(150, 50)` is rejected and leaves the
state unchanged. -/
theorem c4_add_fan_curve_point_bounds_witness :
    applyDaemonOp sampleDaemonState (.addFanCurvePoint 150 50) true
      = (sampleDaemonState, .error "Invalid fan curve point values") :=
  (c4_add_fan_curve_point_bounds sampleDaemonState true 150 50).1 (by decide)

/-- C10: the duty computed by `calculate_duty_for_temperature` depends only
on the whole-degree part of the input: evaluating at `t` and at
`t / 1000 * 1000` (integer division) gives the same duty for every curve and
every input, so sub-degree resolution never influences the result. -/
theorem c10_duty_depends_only_on_whole_degrees (c : FanCurve) (t : Nat) :
    c.calculate_duty_for_temperature t
      = c.calculate_duty_for_temperature (t / 1000 * 1000) := by
  unfold FanCurve.calculate_duty_for_temperature
  rw [Nat.mul_div_cancel _ (by norm_num)]

/-! ## Filesystem lemmas for the persistence protocol -/

/-- Removing a path makes reads of that path return nothing. -/
theorem fsRead_fsRemove_self (fs : FS) (p : String) : fsRead (fsRemove fs p) p = none := by
  induction fs with
  | nil => rfl
  | cons e rest ih =>
      by_cases hp : e.1 = p
      · simpa [fsRemove, hp] using ih
      · simpa [fsRemove, fsRead, hp] using ih

/-- Removing one path does not affect reads of another. -/
theorem fsRead_fsRemove_other (fs : FS) (p q : String) (h : p ≠ q) :
    fsRead (fsRemove fs p) q = fsRead fs q := by
  induction fs with
  | nil => rfl
  | cons e rest ih =>
      by_cases hp : e.1 = p
      · have hq : ¬ e.1 = q := by rw [hp]; exact h
        simpa [fsRemove, fsRead, hp, hq, h] using ih
      · by_cases hq : e.1 = q
        · simp [fsRemove, fsRead, hp, hq, Ne.symm h]
        · simpa [fsRemove, fsRead, hp, hq] using ih

/-- A write is immediately readable. -/
theorem fsRead_fsWrite_self (fs : FS) (p c : String) : fsRead (fsWrite fs p c) p = some c := by
  simp [fsWrite, fsRead]

/-- Writing one path does not affect reads of another. -/
theorem fsRead_fsWrite_other (fs : FS) (p c q : String) (h : p ≠ q) :
    fsRead (fsWrite fs p c) q = fsRead fs q := by
  rw [fsWrite, fsRead]
  simp only [h, if_neg]
  exact fsRead_fsRemove_other fs p q h

/-- C5: the persistence protocol of `save_config_internal` is atomic for the
target file.  First conjunct — when the write to the temporary file succeeds
but the rename fails, the temporary file is deleted, the error is surfaced to
the caller, and the previously persisted target is untouched.  Second
conjunct — under every combination of I/O outcomes a reader of the target
path sees either the old persisted content or the complete serialized text,
never the partial bytes of an interrupted write (those can appear only at the
temporary path). -/
theorem c5_save_config_internal_atomic (fs : FS)
    (cfgText cfgPath tmpPath partial_ : String) (hne : tmpPath ≠ cfgPath) :
    ((save_config_internal fs cfgText cfgPath tmpPath true false partial_).2
        = .error "Failed to rename temp config file"
      ∧ fsRead (save_config_internal fs cfgText cfgPath tmpPath true false partial_).1 tmpPath
        = none
      ∧ fsRead (save_config_internal fs cfgText cfgPath tmpPath true false partial_).1 cfgPath
        = fsRead fs cfgPath)
    ∧ (∀ writeOk renameOk,
        fsRead (save_config_internal fs cfgText cfgPath tmpPath writeOk renameOk partial_).1
            cfgPath
          = fsRead fs cfgPath
        ∨ fsRead (save_config_internal fs cfgText cfgPath tmpPath writeOk renameOk partial_).1
            cfgPath
          = some cfgText) := by
  constructor
  · refine ⟨rfl, ?_, ?_⟩
    · show fsRead (fsRemove (fsWrite fs tmpPath cfgText) tmpPath) tmpPath = none
      exact fsRead_fsRemove_self _ _
    · show fsRead (fsRemove (fsWrite fs tmpPath cfgText) tmpPath) cfgPath = fsRead fs cfgPath
      rw [fsRead_fsRemove_other _ _ _ hne, fsRead_fsWrite_other _ _ _ _ hne]
  · intro writeOk renameOk
    cases writeOk with
    | false =>
        left
        show fsRead (fsWrite fs tmpPath partial_) cfgPath = fsRead fs cfgPath
        exact fsRead_fsWrite_other _ _ _ _ hne
    | true =>
        cases renameOk with
        | false =>
            left
            show fsRead (fsRemove (fsWrite fs tmpPath cfgText) tmpPath) cfgPath
              = fsRead fs cfgPath
            rw [fsRead_fsRemove_other _ _ _ hne, fsRead_fsWrite_other _ _ _ _ hne]
        | true =>
            right
            show fsRead (fsRename (fsWrite fs tmpPath cfgText) tmpPath cfgPath) cfgPath
              = some cfgText
            simp only [fsRename, fsRead_fsWrite_self]
            rw [fsRead_fsRemove_other _ _ _ hne, fsRead_fsWrite_self]

/-- Witness for C5 on a concrete filesystem and concrete paths. -/
theorem c5_save_config_internal_atomic_witness :
    ((save_config_internal [("config.json", "old")] "new" "config.json" "config.tmp"
          true false "gar").2
        = .error "Failed to rename temp config file"
      ∧ fsRead (save_config_internal [("config.json", "old")] "new" "config.json" "config.tmp"
          true false "gar").1 "config.tmp" = none
      ∧ fsRead (save_config_internal [("config.json", "old")] "new" "config.json" "config.tmp"
          true false "gar").1 "config.json" = fsRead [("config.json", "old")] "config.json")
    ∧ (∀ writeOk renameOk,
        fsRead (save_config_internal [("config.json", "old")] "new" "config.json" "config.tmp"
            writeOk renameOk "gar").1 "config.json"
          = fsRead [("config.json", "old")] "config.json"
        ∨ fsRead (save_config_internal [("config.json", "old")] "new" "config.json" "config.tmp"
            writeOk renameOk "gar").1 "config.json"
          = some "new") :=
  c5_save_config_internal_atomic [("config.json", "old")] "new" "config.json" "config.tmp" "gar"
    (by decide)

/-- The outcome of the retry loop of `ensure_config_saved` is determined by
the first three save attempts alone: attempt 0 succeeding, else attempt 1,
else attempt 2, whose error is returned. -/
theorem ensure_config_saved_eq_cases (f : Nat → Except String Unit)
    (v : Except String Unit) :
    ensure_config_saved f v =
      match f 0, f 1, f 2 with
      | .ok (), _, _ => .ok ()
      | .error _, .ok (), _ => .ok ()
      | .error _, .error _, .ok () => .ok ()
      | .error _, .error _, .error e => .error e := by
  unfold ensure_config_saved
  cases hf0 : f 0 with
  | ok u => cases u; simp [ensure_config_saved_go, hf0]
  | error e0 =>
      cases hf1 : f 1 with
      | ok u => cases u; simp [ensure_config_saved_go, hf0, hf1]
      | error e1 =>
          cases hf2 : f 2 with
          | ok u => cases u; simp [ensure_config_saved_go, hf0, hf1, hf2]
          | error e2 => simp [ensure_config_saved_go, hf0, hf1, hf2]

/-- C6: `ensure_config_saved` (i) never lets the post-save round-trip
validation outcome influence its result, (ii) consults at most the first 3
save attempts, (iii) returns success as soon as one of those attempts
succeeds (with any validation outcome), and (iv) returns the final write
error after all 3 attempts fail. -/
theorem c6_ensure_config_saved_retry_semantics :
    (∀ (f : Nat → Except String Unit) (v₁ v₂ : Except String Unit),
        ensure_config_saved f v₁ = ensure_config_saved f v₂)
    ∧ (∀ (f g : Nat → Except String Unit) (v : Except String Unit),
        (∀ i, i < 3 → f i = g i) → ensure_config_saved f v = ensure_config_saved g v)
    ∧ (∀ (f : Nat → Except String Unit) (v : Except String Unit) (k : Nat),
        k < 3 → (∀ i, i < k → f i ≠ .ok ()) → f k = .ok () →
          ensure_config_saved f v = .ok ())
    ∧ (∀ (f : Nat → Except String Unit) (v : Except String Unit) (e₀ e₁ e₂ : String),
        f 0 = .error e₀ → f 1 = .error e₁ → f 2 = .error e₂ →
          ensure_config_saved f v = .error e₂) := by
  refine ⟨?_, ?_, ?_, ?_⟩
  · intro f v₁ v₂
    rw [ensure_config_saved_eq_cases f v₁, ensure_config_saved_eq_cases f v₂]
  · intro f g v h
    rw [ensure_config_saved_eq_cases, ensure_config_saved_eq_cases,
      h 0 (by norm_num), h 1 (by norm_num), h 2 (by norm_num)]
  · intro f v k hk hfail hok
    rw [ensure_config_saved_eq_cases]
    interval_cases k
    · rw [hok]
    · cases hf0 : f 0 with
      | ok u => cases u; exact absurd hf0 (hfail 0 (by norm_num))
      | error e0 => rw [hok]
    · cases hf0 : f 0 with
      | ok u => cases u; exact absurd hf0 (hfail 0 (by norm_num))
      | error e0 =>
          cases hf1 : f 1 with
          | ok u => cases u; exact absurd hf1 (hfail 1 (by norm_num))
          | error e1 => rw [hok]
  · intro f v e₀ e₁ e₂ h0 h1 h2
    rw [ensure_config_saved_eq_cases, h0, h1, h2]

/-- Witness for C6: first attempt fails, second succeeds, validation reports
a mismatch — the call still returns success after 2 attempts. -/
theorem c6_ensure_config_saved_retry_semantics_witness :
    ensure_config_saved (fun i => if i = 0 then .error "disk full" else .ok ())
      (.error "round-trip mismatch") = .ok () :=
  c6_ensure_config_saved_retry_semantics.2.2.1
    (fun i => if i = 0 then .error "disk full" else .ok ())
    (.error "round-trip mismatch") 1 (by norm_num)
    (fun i hi => by interval_cases i; simp)
    (by simp)

/-- C8: the monitoring loop's behaviour is entirely independent of tick
errors — a failed sample/apply on any iteration is logged and the next
iteration still runs — and when the loop exits at iteration `k`, the
`is_monitoring` flag was false at `k` and true at every earlier iteration it
ran: a loop exit can only be caused by an explicit stop, never by a failing
tick. -/
theorem c8_monitoring_loop_exits_only_on_stop :
    (∀ (m : Nat → Bool) (e₁ e₂ : Nat → Option String) (fuel n : Nat),
        run_monitoring_loop m e₁ fuel n = run_monitoring_loop m e₂ fuel n)
    ∧ (∀ (m : Nat → Bool) (e : Nat → Option String) (fuel n k : Nat),
        run_monitoring_loop m e fuel n = some k →
          m k = false ∧ ∀ j, n ≤ j → j < k → m j = true) := by
  constructor
  · intro m e₁ e₂ fuel
    induction fuel with
    | zero => intro n; rfl
    | succ f ih =>
        intro n
        simp only [run_monitoring_loop]
        cases hm : m n with
        | true => simpa [hm] using ih (n + 1)
        | false => simp [hm]
  · intro m e fuel
    induction fuel with
    | zero => intro n k h; simp [run_monitoring_loop] at h
    | succ f ih =>
        intro n k h
        simp only [run_monitoring_loop] at h
        cases hm : m n with
        | true =>
            rw [hm] at h
            simp only [if_true] at h
            obtain ⟨hk, hj⟩ := ih (n + 1) k h
            refine ⟨hk, ?_⟩
            intro j hnj hjk
            rcases Nat.eq_or_lt_of_le hnj with heq | hlt
            · rw [← heq]; exact hm
            · exact hj j hlt hjk
        | false =>
            simp [hm] at h
            subst h
            exact ⟨hm, fun j hnj hjk => absurd (lt_of_le_of_lt hnj hjk) (lt_irrefl n)⟩

/-- Witness for C8: a loop that is stopped at iteration 2 while every tick
fails exits exactly at 2, with the flag true on iterations 0 and 1. -/
theorem c8_monitoring_loop_exits_only_on_stop_witness :
    (fun n => decide (n < 2)) 2 = false
      ∧ ∀ j, 0 ≤ j → j < 2 → (fun n => decide (n < 2)) j = true :=
  c8_monitoring_loop_exits_only_on_stop.2 (fun n => decide (n < 2))
    (fun _ => some "Failed to log fan data") 5 0 2 (by decide)

/-! ## Interpolation lemmas -/

/-- The i16 cast is the identity on quotients that fit. -/
theorem toI16_of_le (v : Nat) (h : v ≤ 32767) : toI16 v = (v : Int) := by
  simp only [toI16]
  rw [Nat.mod_eq_of_lt (show v < 65536 by omega)]
  rw [if_pos (show v < 32768 by omega)]

/-- `getLastI` ignores the head of a list with at least two elements. -/
theorem getLastI_cons_cons (a b : FanPoint) (l : List FanPoint) :
    (a :: b :: l).getLastI = (b :: l).getLastI := by
  rw [List.getLastI_eq_getLast?, List.getLastI_eq_getLast?, List.getLast?_cons_cons]

/-- In a sorted point list the head has the minimum temperature. -/
theorem sorted_headI_le {ps : List FanPoint} (hs : List.Sorted byTemp ps)
    {p : FanPoint} (hp : p ∈ ps) : ps.headI.temp ≤ p.temp := by
  cases ps with
  | nil => cases hp
  | cons q rest =>
      rcases List.mem_cons.mp hp with rfl | hmem
      · exact le_refl _
      · exact (List.sorted_cons.mp hs).1 p hmem

/-- In a sorted point list the last element has the maximum temperature. -/
theorem sorted_le_getLastI {ps : List FanPoint} (hs : List.Sorted byTemp ps) :
    ∀ p ∈ ps, p.temp ≤ ps.getLastI.temp := by
  induction ps with
  | nil => intro p hp; cases hp
  | cons q rest ih =>
      intro p hp
      cases rest with
      | nil =>
          rcases List.mem_cons.mp hp with rfl | hmem
          · exact le_refl _
          · cases hmem
      | cons q2 rest2 =>
          rw [getLastI_cons_cons]
          rcases List.mem_cons.mp hp with rfl | hmem
          · have h1 : byTemp p q2 := (List.sorted_cons.mp hs).1 q2 (List.mem_cons_self q2 rest2)
            have h2 := ih hs.of_cons q2 (List.mem_cons_self q2 rest2)
            exact le_trans h1 h2
          · exact ih hs.of_cons p hmem

/-- Duty of the first point in the list bearing the given temperature
(0 when none does); describes what the ascending bracket scan returns at an
exact point temperature. -/
def firstDutyAt : List FanPoint → Int → Nat
  | [], _ => 0
  | p :: ps, T => if p.temp = T then p.duty else firstDutyAt ps T

/-- When the query temperature equals the right endpoint of a bracket with
distinct endpoint temperatures, interpolation returns the right endpoint's
duty exactly (the factor is exactly 1; the `f32` computation is exact
here too). -/
theorem interpPair_right (tc : Int) (p1 p2 : FanPoint) (hlt : p1.temp < p2.temp)
    (heq : tc = p2.temp) : interpPair tc p1 p2 = p2.duty := by
  subst heq
  simp only [interpPair]
  have h1 : 2 * ((p1.duty : Int) * (p2.temp - p1.temp)
        + (p2.temp - p1.temp) * ((p2.duty : Int) - (p1.duty : Int)))
      + (p2.temp - p1.temp)
      = (p2.temp - p1.temp) + (p2.duty : Int) * (2 * (p2.temp - p1.temp)) := by ring
  rw [h1, Int.fdiv_eq_ediv _ (by omega), Int.add_mul_ediv_right _ _ (by omega),
    Int.ediv_eq_zero_of_lt (by omega) (by omega)]
  simp

/-- The ascending bracket scan, evaluated at a temperature that some point of
a sorted list carries and that lies strictly between the head's and the
last's temperatures, returns the duty of the first point bearing that
temperature. -/
theorem scanPairs_exact :
    ∀ ps : List FanPoint, List.Sorted byTemp ps → ∀ T : Int,
      (∃ p ∈ ps, p.temp = T) → ps.headI.temp < T → T < ps.getLastI.temp →
      scanPairs T ps = firstDutyAt ps T := by
  intro ps
  induction ps with
  | nil => intro _ T hmem _ _; rcases hmem with ⟨p, hp, _⟩; cases hp
  | cons p1 rest ih =>
      intro hs T hmem hhead hlast
      cases rest with
      | nil =>
          exfalso
          have : p1.temp < p1.temp := lt_trans hhead hlast
          exact lt_irrefl _ this
      | cons p2 rest2 =>
          have hp1T : p1.temp < T := hhead
          by_cases hc : T ≤ p2.temp
          · have hp2ge : p2.temp ≤ T := by
              rcases hmem with ⟨p, hp, hpT⟩
              rcases List.mem_cons.mp hp with rfl | hmem2
              · omega
              · have := sorted_headI_le hs.of_cons hmem2
                simp only [List.headI] at this
                omega
            have hp2T : p2.temp = T := le_antisymm hp2ge hc
            simp only [scanPairs]
            rw [if_pos ⟨le_of_lt hp1T, hc⟩]
            rw [interpPair_right T p1 p2 (by omega) hp2T.symm]
            simp only [firstDutyAt]
            rw [if_neg (by omega : ¬ p1.temp = T), if_pos hp2T]
          · push_neg at hc
            simp only [scanPairs]
            rw [if_neg (fun hcon => absurd hcon.2 (not_le.mpr hc))]
            simp only [firstDutyAt]
            rw [if_neg (by omega : ¬ p1.temp = T)]
            apply ih hs.of_cons T
            · rcases hmem with ⟨p, hp, hpT⟩
              rcases List.mem_cons.mp hp with rfl | hmem2
              · exact absurd hpT (by omega)
              · exact ⟨p, hmem2, hpT⟩
            · exact hc
            · rw [← getLastI_cons_cons p1 p2 rest2]
              exact hlast

/-- Curve with two points sharing one temperature, reachable by `add_point`;
used to exhibit the duplicate-temperature boundary behaviour. -/
def cdup : FanCurve := ⟨"dup", [⟨50, 10⟩, ⟨50, 99⟩]⟩

/-- Two-point curve used to exhibit the i16 wrap-around of the degree cast. -/
def cwrap : FanCurve := ⟨"wrap", [⟨0, 10⟩, ⟨50, 100⟩]⟩

/-- C2 (amended): clamp-low holds as stated — any input whose whole-degree
value is at most the first point's temperature yields the first point's duty;
clamp-high holds provided additionally (i) the whole-degree value fits in i16
(at most 32767, no wrap-around) and (ii) it strictly exceeds the first
point's temperature (at an input equal to both the first and last
temperature — possible only when all point temperatures are equal — the
first point's duty is returned instead). -/
theorem c2_clamp_low_high_amended (c : FanCurve) (hs : List.Sorted byTemp c.points)
    (hr : ∀ p ∈ c.points, -32768 ≤ p.temp ∧ p.temp ≤ 32767)
    (hne : c.points ≠ []) (t : Nat) :
    (((t / 1000 : Nat) : Int) ≤ c.points.headI.temp →
        c.calculate_duty_for_temperature t = c.points.headI.duty)
    ∧ (t / 1000 ≤ 32767 → c.points.getLastI.temp ≤ ((t / 1000 : Nat) : Int) →
        c.points.headI.temp < ((t / 1000 : Nat) : Int) →
        c.calculate_duty_for_temperature t = c.points.getLastI.duty) := by
  constructor
  · intro hA
    have hhm : c.points.headI ∈ c.points := by
      cases hq : c.points with
      | nil => exact absurd hq hne
      | cons a l => exact List.mem_cons_self a l
    have hub : c.points.headI.temp ≤ 32767 := (hr _ hhm).2
    have hle : t / 1000 ≤ 32767 := by omega
    simp only [FanCurve.calculate_duty_for_temperature]
    rw [if_neg (show ¬ c.points.isEmpty = true by simp [hne])]
    rw [toI16_of_le _ hle]
    rw [if_pos hA]
  · intro hle hB hA
    simp only [FanCurve.calculate_duty_for_temperature]
    rw [if_neg (show ¬ c.points.isEmpty = true by simp [hne])]
    rw [toI16_of_le _ hle]
    rw [if_neg (not_le.mpr hA), if_pos hB]

/-- Witness for C2's amended theorem: on the curve `[(0,10),(50,100)]` an
input of 60.0 °C (60000 thousandths) clamps high to duty 100. -/
theorem c2_clamp_low_high_amended_witness :
    FanCurve.calculate_duty_for_temperature ⟨"w", [⟨0, 10⟩, ⟨50, 100⟩]⟩ 60000 = 100 :=
  (c2_clamp_low_high_amended ⟨"w", [⟨0, 10⟩, ⟨50, 100⟩]⟩ (by decide) (by decide)
    (by decide) 60000).2 (by decide) (by decide) (by decide)

/-- C2 fails as stated, in two ways.  On the duplicate-temperature curve
`[(50,10),(50,99)]` (reachable by `add_point`, sorted) the input 50.0 °C is
at/above the last point's temperature yet yields the FIRST point's duty 10,
not the last's 99.  On `[(0,10),(50,100)]` the input 40000.0 °C
(40000000 thousandths, whole-degree value 40000 ≥ 50) wraps to −25536 in the
`as i16` cast and clamps LOW to duty 10 instead of high to 100. -/
theorem c2_clamp_counterexample :
    (cdup = applyCurveOps ⟨"dup", []⟩ [.add 50 10, .add 50 99]
      ∧ List.Sorted byTemp cdup.points
      ∧ cdup.points.getLastI = ⟨50, 99⟩
      ∧ cdup.points.getLastI.temp ≤ ((50000 / 1000 : Nat) : Int)
      ∧ cdup.calculate_duty_for_temperature 50000 = 10)
    ∧ (cwrap.points.getLastI = ⟨50, 100⟩
      ∧ (40000000 / 1000 : Nat) = 40000
      ∧ cwrap.points.getLastI.temp ≤ ((40000000 / 1000 : Nat) : Int)
      ∧ cwrap.calculate_duty_for_temperature 40000000 = 10) := by decide

/-- C3 (amended): evaluating the curve at the exact temperature of one of
its points (expressible as a u32 input only for non-negative temperatures)
returns the duty of the FIRST point bearing that temperature — except when
that temperature is the curve's maximum and strictly above its minimum, in
which case the LAST point's duty is returned; with several points sharing one
temperature these can disagree, so "returns that point's duty" fails for the
other sharers. -/
theorem c3_exact_temperature_amended (c : FanCurve)
    (hs : List.Sorted byTemp c.points) (p : FanPoint) (hp : p ∈ c.points)
    (h0 : 0 ≤ p.temp) (h1 : p.temp ≤ 32767) :
    c.calculate_duty_for_temperature (1000 * p.temp.toNat)
      = if c.points.getLastI.temp = p.temp ∧ c.points.headI.temp < p.temp
        then c.points.getLastI.duty
        else firstDutyAt c.points p.temp := by
  have hne : c.points ≠ [] := by intro h; rw [h] at hp; cases hp
  have hdiv : 1000 * p.temp.toNat / 1000 = p.temp.toNat :=
    Nat.mul_div_cancel_left _ (by norm_num)
  have htoNle : p.temp.toNat ≤ 32767 := by omega
  have htc : toI16 (1000 * p.temp.toNat / 1000) = p.temp := by
    rw [hdiv, toI16_of_le _ htoNle, Int.toNat_of_nonneg h0]
  simp only [FanCurve.calculate_duty_for_temperature]
  rw [if_neg (show ¬ c.points.isEmpty = true by simp [hne])]
  rw [htc]
  by_cases hA : p.temp ≤ c.points.headI.temp
  · have hAeq : c.points.headI.temp = p.temp := le_antisymm (sorted_headI_le hs hp) hA
    rw [if_pos hA]
    rw [if_neg (fun hcon => absurd hcon.2 (by omega))]
    cases hq : c.points with
    | nil => exact absurd hq hne
    | cons q rest =>
        rw [hq] at hAeq
        simp only [List.headI] at hAeq
        simp only [hq, List.headI, firstDutyAt]
        rw [if_pos hAeq]
  · push_neg at hA
    rw [if_neg (not_le.mpr hA)]
    by_cases hB : c.points.getLastI.temp ≤ p.temp
    · have hBeq : c.points.getLastI.temp = p.temp :=
        le_antisymm hB (sorted_le_getLastI hs p hp)
      rw [if_pos hB, if_pos ⟨hBeq, hA⟩]
    · push_neg at hB
      rw [if_neg (not_le.mpr hB)]
      rw [if_neg (fun hcon => absurd hcon.1 (by omega))]
      exact scanPairs_exact c.points hs p.temp ⟨p, hp, rfl⟩ hA hB

/-- Witness for C3's amended theorem: on
`[(0,0),(50,10),(50,99),(100,100)]`, evaluating at the interior duplicated
temperature 50 returns 10, the duty of the first point bearing 50. -/
theorem c3_exact_temperature_amended_witness :
    FanCurve.calculate_duty_for_temperature
        ⟨"w4", [⟨0, 0⟩, ⟨50, 10⟩, ⟨50, 99⟩, ⟨100, 100⟩]⟩
        (1000 * ((⟨50, 10⟩ : FanPoint).temp.toNat)) = 10 :=
  (c3_exact_temperature_amended ⟨"w4", [⟨0, 0⟩, ⟨50, 10⟩, ⟨50, 99⟩, ⟨100, 100⟩]⟩
    (by decide) ⟨50, 10⟩ (by decide) (by decide) (by decide)).trans (by decide)

/-- C3 fails as stated: the point `(50,99)` lies in the (reachable, sorted)
curve `[(50,10),(50,99)]`, yet evaluating at its exact temperature returns
10, not its duty 99. -/
theorem c3_exact_temperature_counterexample :
    (⟨50, 99⟩ : FanPoint) ∈ cdup.points
      ∧ cdup.calculate_duty_for_temperature
          (1000 * ((⟨50, 99⟩ : FanPoint).temp.toNat)) = 10
      ∧ (10 : Nat) ≠ 99 := by decide
